import Mathlib

/-! iptc-api: the `/api/embed` handler of `server.js`

A shallow embedding of `src/server.js`: the UCS-2LE encoder `encodeUCS2` and the
`POST /api/embed` handler. JavaScript strings are sequences of 16-bit code units.
The EXIF library `piexifjs` (`piexif.dump`, `piexif.insert`, the `piexif.ImageIFD`
tag table) is an external dependency; the handler is embedded with those three
as parameters, and every call it makes to them is recorded. The fields of the
request body are arbitrary JSON values.
-/

namespace IptcApi

/-! ## JavaScript values -/

/-- One UTF-16 code unit, the value range of `String.prototype.charCodeAt`. -/
abbrev CodeUnit := Fin 65536

/-- A JavaScript string: its sequence of 16-bit code units (`length` is the list length). -/
abbrev JsString := List CodeUnit

/-- The code units of one Unicode scalar value: itself inside the basic plane, a
surrogate pair above it. -/
def utf16 (c : Char) : List CodeUnit :=
  if c.toNat < 65536 then
    [⟨c.toNat % 65536, Nat.mod_lt _ (by decide)⟩]
  else
    [⟨(55296 + (c.toNat - 65536) / 1024) % 65536, Nat.mod_lt _ (by decide)⟩,
     ⟨(56320 + (c.toNat - 65536) % 1024) % 65536, Nat.mod_lt _ (by decide)⟩]

/-- A string literal of the source as a JavaScript string. -/
def jsStr (s : String) : JsString :=
  s.toList.flatMap utf16

/-- The code unit of `","`. -/
def comma : CodeUnit := 44

/-! ## `encodeUCS2` (server.js lines 19-29) -/

/-- The `for` loop of `encodeUCS2`: from index `i`, with `arr` the bytes pushed so far.
A code unit is below 65536, so `&` and `>>` act as on natural numbers. -/
def encodeUCS2.loop (str : JsString) (i : Nat) (arr : List Nat) : List Nat :=
  if h : i < str.length then
    let code := (str.get ⟨i, h⟩).val
    let arr := arr ++ [code &&& 0xff]
    let arr := arr ++ [(code >>> 8) &&& 0xff]
    encodeUCS2.loop str (i + 1) arr
  else
    arr
termination_by str.length - i

/-- Encode string to UCS-2 LE byte array: `encodeUCS2(str)`. -/
def encodeUCS2 (str : JsString) : List Nat :=
  let arr := encodeUCS2.loop str 0 []
  arr ++ [0, 0]

/-! ## Strings: `split`, `startsWith`, `substring` -/

/-- The method `str.split(sep)` for a one-character separator: the pieces between the
occurrences of `sep` (an empty string gives one empty piece). -/
def split (sep : CodeUnit) : JsString → List JsString
  | [] => [[]]
  | c :: cs =>
    if c = sep then [] :: split sep cs
    else
      match split sep cs with
      | [] => [[c]]
      | piece :: pieces => (c :: piece) :: pieces

/-- The method `str.startsWith(p)`. -/
def startsWith (str p : JsString) : Bool :=
  p.isPrefixOf str

/-- The method `str.substring(0, n)`. -/
def substring0 (str : JsString) (n : Nat) : JsString :=
  str.take n

/-! ## Request and response -/

/-- A value of the parsed JSON body, as far as the handler inspects it. An array is
known by its number of items. A plain object is known by whether the comparison
`0 < obj.length` holds for it (it does not when the object has no `length` property). -/
inductive JsVal where
  | undefined
  | null
  | bool (b : Bool)
  | number (n : Int)
  | string (s : JsString)
  | array (length : Nat)
  | object (lengthPositive : Bool)
  deriving DecidableEq, Repr

/-- Truthiness of a value, as tested by `!image` and by `||`. -/
def JsVal.truthy : JsVal → Bool
  | .undefined => false
  | .null => false
  | .bool b => b
  | .number n => n != 0
  | .string s => s != []
  | .array _ => true
  | .object _ => true

/-- The operator `typeof`. -/
def JsVal.typeof : JsVal → JsString
  | .undefined => jsStr "undefined"
  | .null => jsStr "object"
  | .bool _ => jsStr "boolean"
  | .number _ => jsStr "number"
  | .string _ => jsStr "string"
  | .array _ => jsStr "object"
  | .object _ => jsStr "object"

/-- The destructured `req.body`: each of the four fields is any JSON value, `undefined`
when the field is absent. -/
structure Body where
  image : JsVal
  title : JsVal
  description : JsVal
  keywords : JsVal
  deriving DecidableEq, Repr

/-- The expression `field || ""`: the field when it is truthy, otherwise `""`. -/
def orEmpty (field : JsVal) : JsVal :=
  if field.truthy then field else .string []

/-- What the handler sends: the status code and the JSON object, which has an `image`
key or an `error` key (a key whose value is `undefined` is dropped by `res.json`). -/
structure Response where
  status : Nat
  image : Option JsString
  error : Option JsString
  deriving DecidableEq, Repr

/-- The call `res.status(400).json({ error: msg })`. -/
def badRequest (msg : JsString) : Response :=
  { status := 400, image := none, error := some msg }

/-- The call `res.json({ image: img })`, status 200. -/
def sendImage (img : Option JsString) : Response :=
  { status := 200, image := img, error := none }

/-- A thrown value, taken to be an `Error` object: its kind (`err.name`) and its
message (`err.message`). -/
structure JsError where
  name : JsString
  message : JsString
  deriving DecidableEq, Repr

/-- The `catch` branch: `res.status(500).json({ error: err.message })`. -/
def serverError (err : JsError) : Response :=
  { status := 500, image := none, error := some err.message }

/-- The call `encodeUCS2(str)` on any value. On a string it is the loop above. A number
or a boolean has no `length`, so the loop body never runs. A non-empty array, or an object
for which `0 < str.length` holds, enters the loop, where `str.charCodeAt` is not a
function: a `TypeError` is thrown. Reading `length` of `undefined` or `null` throws. -/
def encodeUCS2Js : JsVal → Except JsError (List Nat)
  | .string str => .ok (encodeUCS2 str)
  | .number _ => .ok [0, 0]
  | .bool _ => .ok [0, 0]
  | .array length =>
    if 0 < length then
      .error { name := jsStr "TypeError", message := jsStr "str.charCodeAt is not a function" }
    else .ok [0, 0]
  | .object lengthPositive =>
    if lengthPositive then
      .error { name := jsStr "TypeError", message := jsStr "str.charCodeAt is not a function" }
    else .ok [0, 0]
  | .undefined =>
    .error { name := jsStr "TypeError",
             message := jsStr "Cannot read properties of undefined (reading 'length')" }
  | .null =>
    .error { name := jsStr "TypeError",
             message := jsStr "Cannot read properties of null (reading 'length')" }

/-! ## The metadata object -/

/-- The value stored under a tag: the value of `description || ""` (ImageDescription) or
an array of numbers (the XP tags). -/
inductive TagValue where
  | value (v : JsVal)
  | bytes (b : List Nat)
  deriving DecidableEq, Repr

/-- A JavaScript object keyed by tag id, in insertion order. -/
abbrev Ifd := List (Nat × TagValue)

/-- The assignment `obj[key] = value`: overwrite an existing key, otherwise add it. -/
def Ifd.set : Ifd → Nat → TagValue → Ifd
  | [], key, value => [(key, value)]
  | (k, v) :: rest, key, value =>
    if k = key then (k, value) :: rest else (k, v) :: Ifd.set rest key value

/-- The lookup `obj[key]`. -/
def Ifd.find (obj : Ifd) (key : Nat) : Option TagValue :=
  (obj.find? (fun kv => kv.1 = key)).map Prod.snd

/-- The object passed to `piexif.dump`:
`{ "0th": .., "Exif": .., "GPS": .., "Interop": .., "1st": .., "thumbnail": .. }`. -/
structure ExifObj where
  zeroth : Ifd
  exif : Ifd
  gps : Ifd
  interop : Ifd
  first : Ifd
  thumbnail : Option (List Nat)
  deriving DecidableEq, Repr

/-- The three tag ids the handler reads from `piexif.ImageIFD`. -/
structure ImageIFD where
  ImageDescription : Nat
  XPTitle : Nat
  XPKeywords : Nat
  deriving DecidableEq, Repr

/-- The tag ids of the three fields in the EXIF/TIFF tag table. -/
def exifTags : ImageIFD :=
  { ImageDescription := 270, XPTitle := 40091, XPKeywords := 40094 }

/-- Lines 72-76: the metadata object built from the three text fields, in the order of
the source; a throwing `encodeUCS2` call ends the construction. -/
def buildExifObj (ifd : ImageIFD) (title description keywords : JsVal) :
    Except JsError ExifObj :=
  let zeroth : Ifd := []
  let zeroth := zeroth.set ifd.ImageDescription (.value (orEmpty description))
  match encodeUCS2Js (orEmpty title) with
  | .error err => .error err
  | .ok xpTitle =>
    let zeroth := zeroth.set ifd.XPTitle (.bytes xpTitle)
    match encodeUCS2Js (orEmpty keywords) with
    | .error err => .error err
    | .ok xpKeywords =>
      let zeroth := zeroth.set ifd.XPKeywords (.bytes xpKeywords)
      .ok { zeroth := zeroth, exif := [], gps := [], interop := [], first := [],
            thumbnail := none }

/-! ## The handler `app.post("/api/embed", ...)` (server.js lines 37-90) -/

/-- The prefix `"data:image/jpeg;base64,"`. -/
def jpegPrefix : JsString := jsStr "data:image/jpeg;base64,"

/-- The prefix `"data:image/jpg;base64,"`. -/
def jpgPrefix : JsString := jsStr "data:image/jpg;base64,"

/-- The prefix `"data:image/"`. -/
def imagePrefix : JsString := jsStr "data:image/"

/-- Lines 51-61, strip data URI prefix to get raw base64: the pair
`(rawBase64, hadPrefix)`, or the 400 response for a data URI of another image type.
`rawBase64` is `none` when `split(",")[1]` is `undefined`. -/
def stripDataUri (image : JsString) : Except Response (Option JsString × Bool) :=
  if startsWith image jpegPrefix || startsWith image jpgPrefix then
    .ok ((split comma image)[1]?, true)
  else if startsWith image imagePrefix then
    .error (badRequest (jsStr "Only JPEG images are supported. Received: " ++ substring0 image 30))
  else
    .ok (some image, false)

/-- A call the handler makes into the EXIF library. -/
inductive Call where
  | dump (exifObj : ExifObj)
  | insert (exifBytes : JsString) (imageInput : JsString)
  deriving DecidableEq, Repr

/-- The result of one request: the response sent and the library calls made, in order. -/
structure Outcome where
  response : Response
  calls : List Call
  deriving DecidableEq, Repr

/-- Lines 69-85: the part of the handler after the checks on `image`, for an accepted
`rawBase64`. Whatever is thrown, by `encodeUCS2`, `piexif.dump` or `piexif.insert`, goes
to the `catch` branch. -/
def embedAccepted (ifd : ImageIFD) (dump : ExifObj → Except JsError JsString)
    (insert : JsString → JsString → Except JsError JsString)
    (body : Body) (rawBase64 : JsString) (hadPrefix : Bool) : Outcome :=
  let imageInput := jsStr "data:image/jpeg;base64," ++ rawBase64
  match buildExifObj ifd body.title body.description body.keywords with
  | .error err => { response := serverError err, calls := [] }
  | .ok exifObj =>
    match dump exifObj with
    | .error err => { response := serverError err, calls := [.dump exifObj] }
    | .ok exifBytes =>
      match insert exifBytes imageInput with
      | .error err =>
        { response := serverError err, calls := [.dump exifObj, .insert exifBytes imageInput] }
      | .ok inserted =>
        let response :=
          if hadPrefix then sendImage (some inserted)
          else sendImage ((split comma inserted)[1]?)
        { response := response, calls := [.dump exifObj, .insert exifBytes imageInput] }

/-- The handler of `POST /api/embed`, with `piexif.ImageIFD`, `piexif.dump` and
`piexif.insert` as parameters; a library call that throws is `Except.error`. -/
def embed (ifd : ImageIFD) (dump : ExifObj → Except JsError JsString)
    (insert : JsString → JsString → Except JsError JsString) (body : Body) : Outcome :=
  if !body.image.truthy then
    { response := badRequest (jsStr "Missing 'image' field"), calls := [] }
  else
    match body.image with
    | .string image =>
      match stripDataUri image with
      | .error response => { response := response, calls := [] }
      | .ok (rawBase64, hadPrefix) =>
        match rawBase64 with
        | none =>
          { response := badRequest (jsStr "Image data is empty or too short. Length: " ++
              jsStr (toString 0)), calls := [] }
        | some raw =>
          if raw = [] then
            { response := badRequest (jsStr "Image data is empty or too short. Length: " ++
                jsStr (toString 0)), calls := [] }
          else if raw.length < 100 then
            { response := badRequest (jsStr "Image data is empty or too short. Length: " ++
                jsStr (toString raw.length)), calls := [] }
          else
            embedAccepted ifd dump insert body raw hadPrefix
    | other =>
      { response := badRequest (jsStr "The 'image' field must be a base64 string (got " ++
          other.typeof ++ jsStr ")"), calls := [] }

/-- The request passes every check on `image`: it is a string whose stripped base64 part
`raw` has at least 100 characters. -/
def Accepted (body : Body) (raw : JsString) (hadPrefix : Bool) : Prop :=
  ∃ image, body.image = .string image ∧ stripDataUri image = .ok (some raw, hadPrefix) ∧
    100 ≤ raw.length

/-! ## Base64 text of a byte sequence

The handler never decodes `image`; its length check counts base64 characters. The
standard encoding (RFC 4648, with `=` padding), which the clients of the endpoint apply
to the JPEG bytes, relates that count to a number of bytes. -/

/-- One byte. -/
abbrev Byte := Fin 256

/-- The base64 character of a 6-bit value. -/
def base64Char (n : Nat) : CodeUnit :=
  (jsStr "ABCDEFGHIJKLMNOPQRSTUVWXYZabcdefghijklmnopqrstuvwxyz0123456789+/").getD n 61

/-- Standard base64 with padding: three bytes give four characters, a last group of
one or two bytes is padded with `=` (code unit 61). -/
def base64 : List Byte → JsString
  | a :: b :: c :: rest =>
    base64Char (a.val / 4) :: base64Char (a.val % 4 * 16 + b.val / 16) ::
      base64Char (b.val % 16 * 4 + c.val / 64) :: base64Char (c.val % 64) :: base64 rest
  | [a, b] =>
    [base64Char (a.val / 4), base64Char (a.val % 4 * 16 + b.val / 16),
      base64Char (b.val % 16 * 4), 61]
  | [a] => [base64Char (a.val / 4), base64Char (a.val % 4 * 16), 61, 61]
  | [] => []

/-! ## Sample inputs -/

/-- A base64 text of 100 characters: `"/9j/"` followed by 96 times `"A"`. -/
def sampleImage : JsString := jsStr "/9j/" ++ List.replicate 96 65

/-- A request with the three text fields of the specification's scenario. -/
def sampleBody : Body :=
  { image := .string sampleImage, title := .string (jsStr "T"),
    description := .string (jsStr "D"), keywords := .string (jsStr "K,L") }

/-- A request with an accepted image and no text: two absent fields, one empty string. -/
def emptyBody : Body :=
  { image := .string sampleImage, title := .undefined, description := .string [],
    keywords := .undefined }

/-- A request whose description has characters outside the ASCII range. -/
def accentBody : Body :=
  { image := .string sampleImage, title := .undefined,
    description := .string (jsStr "é😀"), keywords := .undefined }

/-- A request with an accepted image whose keywords are the array `["a"]`. -/
def arrayBody : Body :=
  { image := .string sampleImage, title := .undefined, description := .undefined,
    keywords := .array 1 }

/-- A byte sequence of 73 bytes that starts with SOI and ends with EOI. -/
def jpeg73 : List Byte := [0xFF, 0xD8] ++ List.replicate 69 0 ++ [0xFF, 0xD9]

/-- A request whose image is the base64 text of `jpeg73`. -/
def jpeg73Body : Body :=
  { image := .string (base64 jpeg73), title := .undefined, description := .undefined,
    keywords := .undefined }

/-- The metadata object of a request without text. -/
def emptyExifObj : ExifObj :=
  { zeroth := [(270, .value (.string [])), (40091, .bytes [0, 0]), (40094, .bytes [0, 0])],
    exif := [], gps := [], interop := [], first := [], thumbnail := none }

/-- The metadata object of `sampleBody`. -/
def sampleExifObj : ExifObj :=
  { zeroth := [(270, .value (.string (jsStr "D"))), (40091, .bytes (encodeUCS2 (jsStr "T"))),
               (40094, .bytes (encodeUCS2 (jsStr "K,L")))],
    exif := [], gps := [], interop := [], first := [], thumbnail := none }

/-- A serialiser that succeeds on every object. -/
def sampleDump : ExifObj → Except JsError JsString :=
  fun _ => .ok (jsStr "Exif")

/-- A splice step that succeeds and returns the image unchanged. -/
def sampleInsert : JsString → JsString → Except JsError JsString :=
  fun _ jpeg => .ok jpeg

/-- A library function that throws `err` on every input. -/
def throwing {α : Type} (err : JsError) : α → Except JsError JsString :=
  fun _ => .error err

/-! ## UCS-2LE as the claims word it -/

/-- The byte list the specification gives for a string: each code unit low byte first,
then high byte, in input order, then the two-byte terminator. -/
def ucs2Bytes (s : JsString) : List Nat :=
  s.flatMap (fun c => [c.val % 256, c.val / 256]) ++ [0, 0]

/-- An array of numbers as a byte sequence: defined when every number is below 256. -/
def asBytes : List Nat → Option (List Byte)
  | [] => some []
  | n :: ns =>
    if h : n < 256 then (asBytes ns).map (fun bytes => ⟨n, h⟩ :: bytes) else none

/-- Removing the trailing two-byte terminator: defined when the last two bytes are
`0x00, 0x00`. -/
def stripTerminator (bytes : List Byte) : Option (List Byte) :=
  if 2 ≤ bytes.length ∧ bytes.drop (bytes.length - 2) = [0, 0] then
    some (bytes.take (bytes.length - 2))
  else none

/-- The code unit `lo + 256 * hi` of a byte pair. -/
def pairUnit (lo hi : Byte) : CodeUnit :=
  ⟨lo.val + 256 * hi.val, by have := lo.isLt; have := hi.isLt; omega⟩

/-- Reading consecutive byte pairs `(lo, hi)` as the code units `lo + 256 * hi`: defined
when the number of bytes is even. -/
def readPairs : List Byte → Option JsString
  | [] => some []
  | [_] => none
  | lo :: hi :: rest => (readPairs rest).map (fun s => pairUnit lo hi :: s)

/-- Decoding as UCS-2LE: the numbers must be bytes; remove the trailing two-byte
terminator, then read the pairs. -/
def decodeUCS2 (values : List Nat) : Option JsString :=
  match asBytes values with
  | none => none
  | some bytes =>
    match stripTerminator bytes with
    | none => none
    | some pairs => readPairs pairs

/-- The two bytes of a code unit, low byte first. -/
def unitBytes (c : CodeUnit) : List Byte :=
  [⟨c.val % 256, Nat.mod_lt _ (by decide)⟩,
   ⟨c.val / 256, by have := c.isLt; omega⟩]

/-! ## Lemmas on `encodeUCS2` -/

theorem low_byte (c : CodeUnit) : c.val &&& 0xff = c.val % 256 :=
  Nat.and_pow_two_sub_one_eq_mod c.val 8

theorem high_byte (c : CodeUnit) : (c.val >>> 8) &&& 0xff = c.val / 256 := by
  have h : c.val / 256 < 256 := by
    have := c.isLt
    omega
  have e : (c.val >>> 8) &&& 0xff = (c.val >>> 8) % 256 :=
    Nat.and_pow_two_sub_one_eq_mod (c.val >>> 8) 8
  rw [e, Nat.shiftRight_eq_div_pow]
  exact Nat.mod_eq_of_lt h

theorem loop_eq (str : JsString) (n i : Nat) (arr : List Nat) (hn : str.length - i = n) :
    encodeUCS2.loop str i arr =
      arr ++ (str.drop i).flatMap (fun c => [c.val % 256, c.val / 256]) := by
  induction n generalizing i arr with
  | zero =>
    rw [encodeUCS2.loop]
    have hi : ¬ i < str.length := by omega
    have hd : str.drop i = [] := List.drop_eq_nil_of_le (by omega)
    simp [hi, hd]
  | succ n ih =>
    rw [encodeUCS2.loop]
    have hi : i < str.length := by omega
    have hd : str.drop i = str[i] :: str.drop (i + 1) := List.drop_eq_getElem_cons hi
    simp only [hi, dite_true]
    rw [ih (i + 1) _ (by omega), low_byte, high_byte, hd]
    simp only [List.flatMap_cons, List.append_assoc, List.cons_append, List.nil_append]
    rfl

theorem encodeUCS2_eq_ucs2Bytes (s : JsString) : encodeUCS2 s = ucs2Bytes s := by
  simp [encodeUCS2, ucs2Bytes, loop_eq s s.length 0 [] rfl]

theorem ucs2Bytes_length (s : JsString) : (ucs2Bytes s).length = 2 * s.length + 2 := by
  induction s with
  | nil => rfl
  | cons c cs ih =>
    simp only [ucs2Bytes, List.flatMap_cons, List.length_append, List.length_cons,
      List.length_nil] at ih ⊢
    omega

/-! ## Lemmas on the UCS-2LE decoder -/

theorem asBytes_map_val (bytes : List Byte) : asBytes (bytes.map Fin.val) = some bytes := by
  induction bytes with
  | nil => rfl
  | cons b bs ih => simp [asBytes, ih, b.isLt]

theorem asBytes_some (values : List Nat) (bytes : List Byte)
    (h : asBytes values = some bytes) : values = bytes.map Fin.val := by
  induction values generalizing bytes with
  | nil =>
    simp only [asBytes, Option.some.injEq] at h
    subst h
    rfl
  | cons n ns ih =>
    simp only [asBytes] at h
    split at h
    · cases hns : asBytes ns with
      | none => simp [hns] at h
      | some bs =>
        simp only [hns, Option.map_some', Option.some.injEq] at h
        subst h
        simp [ih bs hns]
    · cases h

theorem ucs2Bytes_eq_map (s : JsString) :
    ucs2Bytes s = (s.flatMap unitBytes ++ [0, 0]).map Fin.val := by
  induction s with
  | nil => rfl
  | cons c cs ih =>
    simp only [ucs2Bytes, List.flatMap_cons, List.cons_append, List.nil_append,
      List.map_cons, unitBytes, List.append_assoc] at ih ⊢
    rw [ih]

theorem stripTerminator_append (pairs : List Byte) :
    stripTerminator (pairs ++ [0, 0]) = some pairs := by
  have hl : (pairs ++ [0, 0]).length - 2 = pairs.length := by simp
  unfold stripTerminator
  rw [hl]
  simp

theorem stripTerminator_some (bytes pairs : List Byte)
    (h : stripTerminator bytes = some pairs) : bytes = pairs ++ [0, 0] := by
  unfold stripTerminator at h
  split at h
  · rename_i hc
    simp only [Option.some.injEq] at h
    rw [← h, ← hc.2]
    exact (List.take_append_drop _ _).symm
  · cases h

theorem pairUnit_unit (c : CodeUnit) :
    pairUnit ⟨c.val % 256, Nat.mod_lt _ (by decide)⟩
      ⟨c.val / 256, by have := c.isLt; omega⟩ = c := by
  apply Fin.ext
  simp only [pairUnit]
  omega

theorem readPairs_unitBytes (s : JsString) : readPairs (s.flatMap unitBytes) = some s := by
  induction s with
  | nil => rfl
  | cons c cs ih =>
    have h : (c :: cs).flatMap unitBytes =
        ⟨c.val % 256, Nat.mod_lt _ (by decide)⟩ ::
          ⟨c.val / 256, by have := c.isLt; omega⟩ :: cs.flatMap unitBytes := rfl
    rw [h, readPairs, ih, Option.map_some', pairUnit_unit]

theorem unitBytes_pairUnit (lo hi : Byte) : unitBytes (pairUnit lo hi) = [lo, hi] := by
  have h1 := lo.isLt
  have h2 := hi.isLt
  simp only [unitBytes, pairUnit, List.cons.injEq, and_true]
  constructor <;> apply Fin.ext <;> simp only <;> omega

theorem readPairs_some : ∀ (pairs : List Byte) (s : JsString),
    readPairs pairs = some s → pairs = s.flatMap unitBytes
  | [], s, h => by
    simp only [readPairs, Option.some.injEq] at h
    subst h
    rfl
  | [_], s, h => by cases h
  | lo :: hi :: rest, s, h => by
    simp only [readPairs] at h
    cases hr : readPairs rest with
    | none => simp [hr] at h
    | some t =>
      simp only [hr, Option.map_some', Option.some.injEq] at h
      subst h
      simp only [List.flatMap_cons, unitBytes_pairUnit, List.cons_append, List.nil_append]
      rw [← readPairs_some rest t hr]

theorem decode_ucs2Bytes (s : JsString) : decodeUCS2 (ucs2Bytes s) = some s := by
  unfold decodeUCS2
  rw [ucs2Bytes_eq_map, asBytes_map_val]
  simp only [stripTerminator_append, readPairs_unitBytes]

theorem ucs2Bytes_of_decode (values : List Nat) (s : JsString)
    (h : decodeUCS2 values = some s) : values = ucs2Bytes s := by
  unfold decodeUCS2 at h
  split at h
  · cases h
  · rename_i bytes hb
    split at h
    · cases h
    · rename_i pairs hp
      rw [asBytes_some values bytes hb, stripTerminator_some bytes pairs hp,
        readPairs_some pairs s h, ucs2Bytes_eq_map]

/-! ## Lemmas on the handler -/

theorem embed_of_accepted (ifd : ImageIFD) (dump : ExifObj → Except JsError JsString)
    (insert : JsString → JsString → Except JsError JsString) (body : Body)
    (raw : JsString) (hadPrefix : Bool) (h : Accepted body raw hadPrefix) :
    embed ifd dump insert body = embedAccepted ifd dump insert body raw hadPrefix := by
  obtain ⟨image, hi, hs, hl⟩ := h
  have hne : raw ≠ [] := by
    intro h0
    rw [h0] at hl
    simp at hl
  have himg : image ≠ [] := by
    intro h0
    rw [h0] at hs
    simp [stripDataUri, startsWith, jpegPrefix, jpgPrefix, imagePrefix, jsStr, utf16] at hs
    exact hne hs.1
  unfold embed
  simp [hi, JsVal.truthy, himg, hs, hne, Nat.not_lt.mpr hl]

theorem stripDataUri_error (image : JsString) (response : Response)
    (h : stripDataUri image = .error response) :
    response = badRequest
      (jsStr "Only JPEG images are supported. Received: " ++ substring0 image 30) := by
  unfold stripDataUri at h
  split at h
  · cases h
  · split at h
    · cases h
      rfl
    · cases h

theorem embed_cases (ifd : ImageIFD) (dump : ExifObj → Except JsError JsString)
    (insert : JsString → JsString → Except JsError JsString) (body : Body) :
    ((embed ifd dump insert body).response.status = 400 ∧
      (embed ifd dump insert body).response.image = none ∧
      (embed ifd dump insert body).calls = [] ∧
      ∀ raw hadPrefix, ¬ Accepted body raw hadPrefix) ∨
    ∃ raw hadPrefix, Accepted body raw hadPrefix := by
  by_cases h : ∃ raw hadPrefix, Accepted body raw hadPrefix
  · exact Or.inr h
  · left
    have hno : ∀ raw hadPrefix, ¬ Accepted body raw hadPrefix :=
      fun raw hadPrefix ha => h ⟨raw, hadPrefix, ha⟩
    refine ⟨?_, ?_, ?_, hno⟩ <;>
    · unfold embed
      split
      · rfl
      · split
        · rename_i image himage
          split
          · rename_i response hs
            obtain rfl := stripDataUri_error image response hs
            rfl
          · rename_i rawBase64 hadPrefix hs
            split
            · rfl
            · rename_i raw
              split
              · rfl
              · split
                · rfl
                · rename_i hlen
                  exact absurd ⟨image, himage, hs, Nat.not_lt.mp hlen⟩ (hno raw hadPrefix)
        · rfl

theorem sampleBody_accepted : Accepted sampleBody sampleImage false :=
  ⟨sampleImage, rfl, rfl, by decide⟩

theorem emptyBody_accepted : Accepted emptyBody sampleImage false :=
  ⟨sampleImage, rfl, rfl, by decide⟩

theorem accentBody_accepted : Accepted accentBody sampleImage false :=
  ⟨sampleImage, rfl, rfl, by decide⟩

theorem encodeUCS2_nil : encodeUCS2 [] = [0, 0] := by
  rw [encodeUCS2_eq_ucs2Bytes]
  rfl

theorem emptyBody_build :
    buildExifObj exifTags emptyBody.title emptyBody.description emptyBody.keywords =
      .ok emptyExifObj := by
  have h : buildExifObj exifTags emptyBody.title emptyBody.description emptyBody.keywords =
      .ok { zeroth := [(270, .value (.string [])), (40091, .bytes (encodeUCS2 [])),
                       (40094, .bytes (encodeUCS2 []))],
            exif := [], gps := [], interop := [], first := [], thumbnail := none } := rfl
  rw [h, encodeUCS2_nil]
  rfl

theorem sampleBody_build :
    buildExifObj exifTags sampleBody.title sampleBody.description sampleBody.keywords =
      .ok sampleExifObj := rfl

theorem orEmpty_string (s : JsString) : orEmpty (.string s) = .string s := by
  by_cases h : s = [] <;> simp [orEmpty, JsVal.truthy, h]

theorem orEmpty_undefined : orEmpty .undefined = .string [] := rfl

theorem encodeUCS2Js_text (field : JsVal)
    (h : field = .undefined ∨ ∃ s, field = .string s) :
    ∃ s, orEmpty field = .string s ∧ encodeUCS2Js (orEmpty field) = .ok (encodeUCS2 s) := by
  rcases h with rfl | ⟨s, rfl⟩
  · exact ⟨[], rfl, rfl⟩
  · exact ⟨s, orEmpty_string s, by rw [orEmpty_string]; rfl⟩

theorem buildExifObj_ok (ifd : ImageIFD) (title description keywords : JsVal) (e : ExifObj)
    (h : buildExifObj ifd title description keywords = .ok e) :
    ∃ xpTitle xpKeywords, encodeUCS2Js (orEmpty title) = .ok xpTitle ∧
      encodeUCS2Js (orEmpty keywords) = .ok xpKeywords ∧
      e = { zeroth := Ifd.set (Ifd.set (Ifd.set [] ifd.ImageDescription
                (.value (orEmpty description))) ifd.XPTitle (.bytes xpTitle))
                ifd.XPKeywords (.bytes xpKeywords),
            exif := [], gps := [], interop := [], first := [], thumbnail := none } := by
  unfold buildExifObj at h
  cases ht : encodeUCS2Js (orEmpty title) with
  | error err => simp [ht] at h
  | ok xpTitle =>
    cases hk : encodeUCS2Js (orEmpty keywords) with
    | error err => simp [ht, hk] at h
    | ok xpKeywords =>
      simp only [ht, hk, Except.ok.injEq] at h
      exact ⟨xpTitle, xpKeywords, rfl, rfl, h.symm⟩

theorem buildExifObj_of_ok (ifd : ImageIFD) (title description keywords : JsVal)
    (xpTitle xpKeywords : List Nat) (ht : encodeUCS2Js (orEmpty title) = .ok xpTitle)
    (hk : encodeUCS2Js (orEmpty keywords) = .ok xpKeywords) :
    buildExifObj ifd title description keywords =
      .ok { zeroth := Ifd.set (Ifd.set (Ifd.set [] ifd.ImageDescription
                (.value (orEmpty description))) ifd.XPTitle (.bytes xpTitle))
                ifd.XPKeywords (.bytes xpKeywords),
            exif := [], gps := [], interop := [], first := [], thumbnail := none } := by
  simp only [buildExifObj, ht, hk]

theorem buildExifObj_error (ifd : ImageIFD) (title description keywords : JsVal)
    (err : JsError) (h : buildExifObj ifd title description keywords = .error err) :
    ∀ other, buildExifObj ifd title other keywords = .error err := by
  intro other
  unfold buildExifObj at h ⊢
  cases ht : encodeUCS2Js (orEmpty title) with
  | error err2 => simpa [ht] using h
  | ok xpTitle =>
    cases hk : encodeUCS2Js (orEmpty keywords) with
    | error err2 => simpa [ht, hk] using h
    | ok xpKeywords => simp [ht, hk] at h

theorem zeroth_entries (ifd : ImageIFD) (h12 : ifd.ImageDescription ≠ ifd.XPTitle)
    (h13 : ifd.ImageDescription ≠ ifd.XPKeywords) (h23 : ifd.XPTitle ≠ ifd.XPKeywords)
    (d t k : TagValue) :
    Ifd.set (Ifd.set (Ifd.set [] ifd.ImageDescription d) ifd.XPTitle t) ifd.XPKeywords k =
      [(ifd.ImageDescription, d), (ifd.XPTitle, t), (ifd.XPKeywords, k)] := by
  simp [Ifd.set, h12, h13, h23]

theorem embedAccepted_calls (ifd : ImageIFD) (dump : ExifObj → Except JsError JsString)
    (insert : JsString → JsString → Except JsError JsString) (body : Body)
    (raw : JsString) (hadPrefix : Bool) :
    (∃ err, buildExifObj ifd body.title body.description body.keywords = .error err ∧
      embedAccepted ifd dump insert body raw hadPrefix =
        { response := serverError err, calls := [] }) ∨
    (∃ e err, buildExifObj ifd body.title body.description body.keywords = .ok e ∧
      dump e = .error err ∧
      embedAccepted ifd dump insert body raw hadPrefix =
        { response := serverError err, calls := [.dump e] }) ∨
    (∃ e exifBytes, buildExifObj ifd body.title body.description body.keywords = .ok e ∧
      dump e = .ok exifBytes ∧
      (embedAccepted ifd dump insert body raw hadPrefix).calls =
        [.dump e, .insert exifBytes (jsStr "data:image/jpeg;base64," ++ raw)] ∧
      ((∃ err, insert exifBytes (jsStr "data:image/jpeg;base64," ++ raw) = .error err ∧
          (embedAccepted ifd dump insert body raw hadPrefix).response = serverError err) ∨
       (∃ inserted, insert exifBytes (jsStr "data:image/jpeg;base64," ++ raw) = .ok inserted ∧
          (embedAccepted ifd dump insert body raw hadPrefix).response =
            if hadPrefix then sendImage (some inserted)
            else sendImage ((split comma inserted)[1]?)))) := by
  cases hb : buildExifObj ifd body.title body.description body.keywords with
  | error err => exact Or.inl ⟨err, rfl, by simp [embedAccepted, hb]⟩
  | ok e =>
    right
    cases hd : dump e with
    | error err => exact Or.inl ⟨e, err, rfl, hd, by simp [embedAccepted, hb, hd]⟩
    | ok exifBytes =>
      right
      cases hi : insert exifBytes (jsStr "data:image/jpeg;base64," ++ raw) with
      | error err =>
        exact ⟨e, exifBytes, rfl, hd, by simp [embedAccepted, hb, hd, hi],
          Or.inl ⟨err, hi, by simp [embedAccepted, hb, hd, hi]⟩⟩
      | ok inserted =>
        refine ⟨e, exifBytes, rfl, hd, by simp [embedAccepted, hb, hd, hi],
          Or.inr ⟨inserted, hi, ?_⟩⟩
        simp only [embedAccepted, hb, hd, hi]

theorem dump_mem_embed (ifd : ImageIFD) (dump : ExifObj → Except JsError JsString)
    (insert : JsString → JsString → Except JsError JsString) (body : Body) (e : ExifObj)
    (he : Call.dump e ∈ (embed ifd dump insert body).calls) :
    buildExifObj ifd body.title body.description body.keywords = .ok e := by
  rcases embed_cases ifd dump insert body with ⟨_, _, hc, _⟩ | ⟨raw, hadPrefix, ha⟩
  · rw [hc] at he
    cases he
  · rw [embed_of_accepted ifd dump insert body raw hadPrefix ha] at he
    rcases embedAccepted_calls ifd dump insert body raw hadPrefix with
      ⟨err, _, h⟩ | ⟨e2, err, hb, _, h⟩ | ⟨e2, exifBytes, hb, _, h, _⟩
    · rw [h] at he
      cases he
    · rw [h] at he
      simp only [List.mem_singleton, Call.dump.injEq] at he
      rw [he, hb]
    · rw [h] at he
      simp only [List.mem_cons, Call.dump.injEq, reduceCtorEq, List.not_mem_nil,
        or_false] at he
      rw [he, hb]

theorem dump_mem_of_accepted (ifd : ImageIFD) (dump : ExifObj → Except JsError JsString)
    (insert : JsString → JsString → Except JsError JsString) (body : Body)
    (raw : JsString) (hadPrefix : Bool) (ha : Accepted body raw hadPrefix) (e : ExifObj)
    (hb : buildExifObj ifd body.title body.description body.keywords = .ok e) :
    Call.dump e ∈ (embed ifd dump insert body).calls := by
  rw [embed_of_accepted ifd dump insert body raw hadPrefix ha]
  rcases embedAccepted_calls ifd dump insert body raw hadPrefix with
    ⟨err, hb2, _⟩ | ⟨e2, err, hb2, _, h⟩ | ⟨e2, exifBytes, hb2, _, h, _⟩
  · rw [hb] at hb2
    cases hb2
  · rw [hb] at hb2
    cases hb2
    simp [h]
  · rw [hb] at hb2
    cases hb2
    simp [h]

theorem calls_nil_iff (ifd : ImageIFD) (dump : ExifObj → Except JsError JsString)
    (insert : JsString → JsString → Except JsError JsString) (body : Body)
    (raw : JsString) (hadPrefix : Bool) (ha : Accepted body raw hadPrefix) :
    (embed ifd dump insert body).calls = [] ↔
      ∃ err, buildExifObj ifd body.title body.description body.keywords = .error err := by
  rw [embed_of_accepted ifd dump insert body raw hadPrefix ha]
  rcases embedAccepted_calls ifd dump insert body raw hadPrefix with
    ⟨err, hb, h⟩ | ⟨e, err, hb, _, h⟩ | ⟨e, exifBytes, hb, _, h, _⟩
  · rw [h]
    exact ⟨fun _ => ⟨err, hb⟩, fun _ => rfl⟩
  · rw [h, hb]
    simp
  · rw [h, hb]
    simp

/-! ## Lemmas on `split` and `base64` -/

theorem split_append_sep (sep : CodeUnit) (p r : JsString) (h : sep ∉ p) :
    split sep (p ++ sep :: r) = p :: split sep r := by
  induction p with
  | nil => simp [split]
  | cons c p ih =>
    have hc : c ≠ sep := fun hc => h (by simp [hc])
    have hp : sep ∉ p := fun hp => h (by simp [hp])
    simp [split, hc, ih hp]

theorem split_head (sep : CodeUnit) (r : JsString) :
    ∃ t, split sep r = r.takeWhile (fun c => c != sep) :: t := by
  induction r with
  | nil => exact ⟨[], rfl⟩
  | cons c r ih =>
    obtain ⟨t, ht⟩ := ih
    by_cases hc : c = sep
    · exact ⟨split sep r, by simp [split, hc]⟩
    · exact ⟨t, by simp [split, hc, ht]⟩

theorem split_piece_length (sep : CodeUnit) (s : JsString) :
    ∀ piece ∈ split sep s, piece.length ≤ s.length := by
  induction s with
  | nil => simp [split]
  | cons c s ih =>
    intro piece hp
    by_cases hc : c = sep
    · simp only [split, hc, if_true, List.mem_cons] at hp
      rcases hp with rfl | hp
      · simp
      · have := ih piece hp
        simp only [List.length_cons]
        omega
    · simp only [split, hc, if_false] at hp
      split at hp
      · simp only [List.mem_singleton] at hp
        subst hp
        simp
      · rename_i first pieces hs
        simp only [List.mem_cons] at hp
        rcases hp with rfl | hp
        · have := ih first (by simp [hs])
          simp only [List.length_cons]
          omega
        · have := ih piece (by simp [hs, hp])
          simp only [List.length_cons]
          omega

theorem base64_length : ∀ bytes : List Byte,
    (base64 bytes).length = 4 * ((bytes.length + 2) / 3)
  | a :: b :: c :: rest => by
    simp only [base64, List.length_cons, base64_length rest]
    omega
  | [_, _] => by simp [base64]
  | [_] => by simp [base64]
  | [] => by simp [base64]

theorem startsWith_append (p r : JsString) : startsWith (p ++ r) p = true := by
  simp [startsWith, List.isPrefixOf_iff_prefix]

theorem startsWith_of_append (p q s : JsString) (h : startsWith s (p ++ q) = true) :
    startsWith s p = true := by
  simp only [startsWith, List.isPrefixOf_iff_prefix] at h ⊢
  exact (List.prefix_append p q).trans h

theorem stripDataUri_jpeg (r : JsString) :
    stripDataUri (jpegPrefix ++ r) = .ok (some (r.takeWhile (fun c => c != comma)), true) := by
  have hp : jpegPrefix = jsStr "data:image/jpeg;base64" ++ [comma] := by decide
  have hc : comma ∉ jsStr "data:image/jpeg;base64" := by decide
  obtain ⟨t, ht⟩ := split_head comma r
  have hs : split comma (jpegPrefix ++ r) =
      jsStr "data:image/jpeg;base64" :: r.takeWhile (fun c => c != comma) :: t := by
    rw [hp, List.append_assoc, List.singleton_append, split_append_sep comma _ r hc, ht]
  simp [stripDataUri, startsWith_append, hs]

theorem stripDataUri_jpg (r : JsString) :
    stripDataUri (jpgPrefix ++ r) = .ok (some (r.takeWhile (fun c => c != comma)), true) := by
  have hp : jpgPrefix = jsStr "data:image/jpg;base64" ++ [comma] := by decide
  have hc : comma ∉ jsStr "data:image/jpg;base64" := by decide
  obtain ⟨t, ht⟩ := split_head comma r
  have hs : split comma (jpgPrefix ++ r) =
      jsStr "data:image/jpg;base64" :: r.takeWhile (fun c => c != comma) :: t := by
    rw [hp, List.append_assoc, List.singleton_append, split_append_sep comma _ r hc, ht]
  simp [stripDataUri, startsWith_append, hs]

theorem takeWhile_no_comma (r : JsString) (h : comma ∉ r) :
    r.takeWhile (fun c => c != comma) = r := by
  rw [List.takeWhile_eq_self_iff]
  intro c hc
  have hne : c ≠ comma := fun hcc => h (hcc ▸ hc)
  simpa using hne

theorem stripDataUri_other (image : JsString) (h : startsWith image imagePrefix = false) :
    stripDataUri image = .ok (some image, false) := by
  have hjpeg : jpegPrefix = imagePrefix ++ jsStr "jpeg;base64," := by decide
  have hjpg : jpgPrefix = imagePrefix ++ jsStr "jpg;base64," := by decide
  have h1 : startsWith image jpegPrefix = false := by
    cases hb : startsWith image jpegPrefix with
    | false => rfl
    | true =>
      rw [hjpeg] at hb
      rw [startsWith_of_append _ _ _ hb] at h
      cases h
  have h2 : startsWith image jpgPrefix = false := by
    cases hb : startsWith image jpgPrefix with
    | false => rfl
    | true =>
      rw [hjpg] at hb
      rw [startsWith_of_append _ _ _ hb] at h
      cases h
  simp [stripDataUri, h1, h2, h]

theorem stripDataUri_raw_length (image raw : JsString) (hadPrefix : Bool)
    (h : stripDataUri image = .ok (some raw, hadPrefix)) : raw.length ≤ image.length := by
  unfold stripDataUri at h
  split at h
  · simp only [Except.ok.injEq, Prod.mk.injEq] at h
    exact split_piece_length comma image raw (List.getElem?_mem h.1)
  · split at h
    · cases h
    · simp only [Except.ok.injEq, Prod.mk.injEq, Option.some.injEq] at h
      rw [← h.1]

theorem other_image_type_rejected (ifd : ImageIFD)
    (dump : ExifObj → Except JsError JsString)
    (insert : JsString → JsString → Except JsError JsString) (body : Body)
    (image : JsString) (hi : body.image = .string image)
    (hjpeg : startsWith image jpegPrefix = false) (hjpg : startsWith image jpgPrefix = false)
    (himg : startsWith image imagePrefix = true) :
    embed ifd dump insert body =
      { response := badRequest
          (jsStr "Only JPEG images are supported. Received: " ++ substring0 image 30),
        calls := [] } := by
  have hne : image ≠ [] := by
    intro h0
    rw [h0] at himg
    revert himg
    decide
  have hs : stripDataUri image = .error (badRequest
      (jsStr "Only JPEG images are supported. Received: " ++ substring0 image 30)) := by
    simp [stripDataUri, hjpeg, hjpg, himg]
  unfold embed
  simp [hi, JsVal.truthy, hne, hs]

/-! ## Claims -/

/-- C1: for every string `s` of code units `c_0 .. c_{n-1}`, `encodeUCS2 s` is exactly the
byte list `c_0 mod 256, c_0 div 256, ..., c_{n-1} mod 256, c_{n-1} div 256, 0, 0` (low byte
first, input order, one two-byte terminator), of length `2n + 2`; a character outside the
basic plane is two surrogate code units and contributes their four raw bytes. -/
theorem encodeUCS2_spec (s : JsString) :
    encodeUCS2 s = s.flatMap (fun c => [c.val % 256, c.val / 256]) ++ [0, 0] ∧
    (encodeUCS2 s).length = 2 * s.length + 2 ∧
    (∀ c : Char, 65536 ≤ c.toNat → ∃ hi lo : CodeUnit, utf16 c = [hi, lo] ∧
      encodeUCS2 (utf16 c) =
        [hi.val % 256, hi.val / 256, lo.val % 256, lo.val / 256, 0, 0]) := by
  refine ⟨encodeUCS2_eq_ucs2Bytes s, ?_, ?_⟩
  · rw [encodeUCS2_eq_ucs2Bytes]
    exact ucs2Bytes_length s
  · intro c hc
    have hlt : ¬ c.toNat < 65536 := Nat.not_lt.mpr hc
    refine ⟨_, _, if_neg hlt, ?_⟩
    rw [encodeUCS2_eq_ucs2Bytes, utf16, if_neg hlt]
    rfl

/-- Evaluation of `encodeUCS2` on `"K,é"`, on one character outside the basic plane and on
the empty string. -/
theorem encodeUCS2_spec_witness :
    encodeUCS2 (jsStr "K,é") = [75, 0, 44, 0, 233, 0, 0, 0] ∧
    encodeUCS2 (jsStr "😀") = [61, 216, 0, 222, 0, 0] ∧
    encodeUCS2 [] = [0, 0] :=
  ⟨(encodeUCS2_spec (jsStr "K,é")).1.trans (by decide),
    (encodeUCS2_spec (jsStr "😀")).1.trans (by decide),
    (encodeUCS2_spec []).1.trans (by decide)⟩

/-- C2: round trip for the XP text fields: decoding `encodeUCS2 s` as UCS-2LE (the
numbers read as bytes, the trailing two-byte terminator removed, each byte pair `(lo, hi)`
read as `lo + 256 * hi`) gives back `s`, for every string including the empty one, and
only the output of `encodeUCS2` decodes to `s`; the XPTitle and XPKeywords values of the
metadata built from a title and keywords decode to that title and those keywords. -/
theorem ucs2_roundtrip (ifd : ImageIFD) (h12 : ifd.ImageDescription ≠ ifd.XPTitle)
    (h13 : ifd.ImageDescription ≠ ifd.XPKeywords) (h23 : ifd.XPTitle ≠ ifd.XPKeywords)
    (title description keywords : JsString) :
    (∀ s : JsString, decodeUCS2 (encodeUCS2 s) = some s) ∧
    decodeUCS2 (encodeUCS2 []) = some [] ∧
    (∀ (values : List Nat) (s : JsString), decodeUCS2 values = some s →
      values = encodeUCS2 s) ∧
    ∃ e xpTitle xpKeywords,
      buildExifObj ifd (.string title) (.string description) (.string keywords) = .ok e ∧
      e.zeroth.find ifd.XPTitle = some (.bytes xpTitle) ∧
      e.zeroth.find ifd.XPKeywords = some (.bytes xpKeywords) ∧
      decodeUCS2 xpTitle = some title ∧ decodeUCS2 xpKeywords = some keywords := by
  have hrt : ∀ s : JsString, decodeUCS2 (encodeUCS2 s) = some s := fun s => by
    rw [encodeUCS2_eq_ucs2Bytes]
    exact decode_ucs2Bytes s
  refine ⟨hrt, hrt [], ?_, ?_⟩
  · intro values s h
    rw [encodeUCS2_eq_ucs2Bytes]
    exact ucs2Bytes_of_decode values s h
  · have ht : encodeUCS2Js (orEmpty (.string title)) = .ok (encodeUCS2 title) := by
      rw [orEmpty_string]
      rfl
    have hk : encodeUCS2Js (orEmpty (.string keywords)) = .ok (encodeUCS2 keywords) := by
      rw [orEmpty_string]
      rfl
    refine ⟨_, encodeUCS2 title, encodeUCS2 keywords,
      buildExifObj_of_ok ifd _ (.string description) _ _ _ ht hk, ?_, ?_,
      hrt title, hrt keywords⟩
    · simp only [zeroth_entries ifd h12 h13 h23]
      simp [Ifd.find, List.find?, h12, h23]
    · simp only [zeroth_entries ifd h12 h13 h23]
      simp [Ifd.find, List.find?, h13, h23]

/-- The round trip at the EXIF tag ids, for the fields `"T"`, `"D"`, `"K,L"`. -/
theorem ucs2_roundtrip_witness :
    exifTags.ImageDescription ≠ exifTags.XPTitle ∧
    exifTags.ImageDescription ≠ exifTags.XPKeywords ∧
    exifTags.XPTitle ≠ exifTags.XPKeywords ∧
    decodeUCS2 (encodeUCS2 (jsStr "K,L")) = some (jsStr "K,L") ∧
    ∃ e xpTitle xpKeywords,
      buildExifObj exifTags (.string (jsStr "T")) (.string (jsStr "D"))
        (.string (jsStr "K,L")) = .ok e ∧
      e.zeroth.find exifTags.XPTitle = some (.bytes xpTitle) ∧
      e.zeroth.find exifTags.XPKeywords = some (.bytes xpKeywords) ∧
      decodeUCS2 xpTitle = some (jsStr "T") ∧ decodeUCS2 xpKeywords = some (jsStr "K,L") :=
  have h := ucs2_roundtrip exifTags (by decide) (by decide) (by decide)
    (jsStr "T") (jsStr "D") (jsStr "K,L")
  ⟨by decide, by decide, by decide, h.1 (jsStr "K,L"), h.2.2.2⟩

/-- C3: when title, description and keywords are each absent or the empty string, the
encoding step raises no error and yields the terminator `[0, 0]` for title and keywords
and the empty string for the description; the metadata is built, and the object handed to
the serialiser has ImageDescription `""`, XPTitle `[0, 0]` and XPKeywords `[0, 0]`; the
handler answers 500 only when the serialiser or the splice step throws. -/
theorem empty_fields (ifd : ImageIFD) (h12 : ifd.ImageDescription ≠ ifd.XPTitle)
    (h13 : ifd.ImageDescription ≠ ifd.XPKeywords) (h23 : ifd.XPTitle ≠ ifd.XPKeywords)
    (dump : ExifObj → Except JsError JsString)
    (insert : JsString → JsString → Except JsError JsString) (body : Body)
    (ht : body.title = .undefined ∨ body.title = .string [])
    (hd : body.description = .undefined ∨ body.description = .string [])
    (hk : body.keywords = .undefined ∨ body.keywords = .string []) :
    orEmpty body.description = .string [] ∧
    encodeUCS2Js (orEmpty body.title) = .ok [0, 0] ∧
    encodeUCS2Js (orEmpty body.keywords) = .ok [0, 0] ∧
    (∃ e, buildExifObj ifd body.title body.description body.keywords = .ok e) ∧
    (∀ e, Call.dump e ∈ (embed ifd dump insert body).calls →
      e.zeroth.find ifd.ImageDescription = some (.value (.string [])) ∧
      e.zeroth.find ifd.XPTitle = some (.bytes [0, 0]) ∧
      e.zeroth.find ifd.XPKeywords = some (.bytes [0, 0])) ∧
    ((embed ifd dump insert body).response.status = 500 →
      ∃ err, (∃ e, dump e = .error err) ∨ (∃ b j, insert b j = .error err)) := by
  have ht0 : orEmpty body.title = .string [] := by rcases ht with h | h <;> rw [h] <;> rfl
  have hd0 : orEmpty body.description = .string [] := by
    rcases hd with h | h <;> rw [h] <;> rfl
  have hk0 : orEmpty body.keywords = .string [] := by rcases hk with h | h <;> rw [h] <;> rfl
  have henc : encodeUCS2Js (.string []) = .ok [0, 0] := by
    simp only [encodeUCS2Js, encodeUCS2_nil]
  have hte : encodeUCS2Js (orEmpty body.title) = .ok [0, 0] := by rw [ht0, henc]
  have hke : encodeUCS2Js (orEmpty body.keywords) = .ok [0, 0] := by rw [hk0, henc]
  have hb := buildExifObj_of_ok ifd body.title body.description body.keywords _ _ hte hke
  refine ⟨hd0, hte, hke, ⟨_, hb⟩, ?_, ?_⟩
  · intro e he
    have he2 := dump_mem_embed ifd dump insert body e he
    rw [hb] at he2
    cases he2
    simp only [zeroth_entries ifd h12 h13 h23, hd0]
    simp [Ifd.find, List.find?, h12, h13, h23]
  · intro h500
    rcases embed_cases ifd dump insert body with ⟨h400, _⟩ | ⟨raw, hadPrefix, ha⟩
    · rw [h400] at h500
      cases h500
    · rw [embed_of_accepted ifd dump insert body raw hadPrefix ha] at h500
      rcases embedAccepted_calls ifd dump insert body raw hadPrefix with
        ⟨err, hb2, _⟩ | ⟨e, err, _, hdump, _⟩ |
        ⟨e, exifBytes, _, _, _, ⟨err, hins, _⟩ | ⟨inserted, _, hresp⟩⟩
      · rw [hb] at hb2
        cases hb2
      · exact ⟨err, Or.inl ⟨_, hdump⟩⟩
      · exact ⟨err, Or.inr ⟨_, _, hins⟩⟩
      · rw [hresp] at h500
        split at h500 <;> cases h500

/-- An accepted request without text: the serialiser is called, with the terminator-only
XP values. -/
theorem empty_fields_witness :
    exifTags.ImageDescription ≠ exifTags.XPTitle ∧
    exifTags.ImageDescription ≠ exifTags.XPKeywords ∧
    exifTags.XPTitle ≠ exifTags.XPKeywords ∧
    (emptyBody.title = .undefined ∨ emptyBody.title = .string []) ∧
    (emptyBody.description = .undefined ∨ emptyBody.description = .string []) ∧
    (emptyBody.keywords = .undefined ∨ emptyBody.keywords = .string []) ∧
    Call.dump emptyExifObj ∈ (embed exifTags sampleDump sampleInsert emptyBody).calls ∧
    emptyExifObj.zeroth.find exifTags.ImageDescription = some (.value (.string [])) ∧
    emptyExifObj.zeroth.find exifTags.XPTitle = some (.bytes [0, 0]) ∧
    emptyExifObj.zeroth.find exifTags.XPKeywords = some (.bytes [0, 0]) :=
  have hmem := dump_mem_of_accepted exifTags sampleDump sampleInsert emptyBody sampleImage
    false emptyBody_accepted emptyExifObj emptyBody_build
  ⟨by decide, by decide, by decide, Or.inl rfl, Or.inr rfl, Or.inl rfl, hmem,
    (empty_fields exifTags (by decide) (by decide) (by decide) sampleDump sampleInsert
      emptyBody (Or.inl rfl) (Or.inr rfl) (Or.inl rfl)).2.2.2.2.1 _ hmem⟩

/-- C4: for every request that reaches the build step, whatever the three text fields
are, the object handed to the serialiser has exactly three entries in its 0th IFD, keyed
ImageDescription, XPTitle and XPKeywords; its Exif, GPS, Interop and 1st IFDs are empty
and its thumbnail is null. -/
theorem dump_argument_shape (ifd : ImageIFD) (h12 : ifd.ImageDescription ≠ ifd.XPTitle)
    (h13 : ifd.ImageDescription ≠ ifd.XPKeywords) (h23 : ifd.XPTitle ≠ ifd.XPKeywords)
    (dump : ExifObj → Except JsError JsString)
    (insert : JsString → JsString → Except JsError JsString) (body : Body) (e : ExifObj)
    (he : Call.dump e ∈ (embed ifd dump insert body).calls) :
    e.zeroth.map Prod.fst = [ifd.ImageDescription, ifd.XPTitle, ifd.XPKeywords] ∧
    e.zeroth.length = 3 ∧
    e.exif = [] ∧ e.gps = [] ∧ e.interop = [] ∧ e.first = [] ∧ e.thumbnail = none := by
  obtain ⟨xpTitle, xpKeywords, _, _, rfl⟩ :=
    buildExifObj_ok ifd _ _ _ e (dump_mem_embed ifd dump insert body e he)
  refine ⟨?_, ?_, rfl, rfl, rfl, rfl, rfl⟩ <;>
    simp [zeroth_entries ifd h12 h13 h23]

/-- The serialiser call of the sample request has the 0th-IFD keys 270, 40091, 40094. -/
theorem dump_argument_shape_witness :
    exifTags.ImageDescription ≠ exifTags.XPTitle ∧
    exifTags.ImageDescription ≠ exifTags.XPKeywords ∧
    exifTags.XPTitle ≠ exifTags.XPKeywords ∧
    Call.dump sampleExifObj ∈ (embed exifTags sampleDump sampleInsert sampleBody).calls ∧
    sampleExifObj.zeroth.map Prod.fst = [270, 40091, 40094] :=
  have hmem := dump_mem_of_accepted exifTags sampleDump sampleInsert sampleBody sampleImage
    false sampleBody_accepted sampleExifObj sampleBody_build
  ⟨by decide, by decide, by decide, hmem,
    (dump_argument_shape exifTags (by decide) (by decide) (by decide) sampleDump sampleInsert
      sampleBody _ hmem).1⟩

/-- C8: for every non-empty description string, with or without characters outside the
ASCII range, the value the handler stores under ImageDescription is the description
itself, in the metadata it builds and in every object it hands to the serialiser; the
description plays no part in whether a request is rejected before serialisation:
replacing it by any other value leaves unchanged whether the serialiser is called, and an
accepted request whose title and keywords encode hands it to the serialiser. -/
theorem description_unchanged (ifd : ImageIFD) (h12 : ifd.ImageDescription ≠ ifd.XPTitle)
    (h13 : ifd.ImageDescription ≠ ifd.XPKeywords)  (h23 : ifd.XPTitle ≠ ifd.XPKeywords)
    (dump : ExifObj → Except JsError JsString)
    (insert : JsString → JsString → Except JsError JsString) (body : Body)
    (description : JsString) (hne : description ≠ [])
    (hd : body.description = .string description) :
    body.description.truthy = true ∧
    orEmpty body.description = .string description ∧
    (∀ e, buildExifObj ifd body.title body.description body.keywords = .ok e →
      e.zeroth.find ifd.ImageDescription = some (.value (.string description))) ∧
    (∀ e, Call.dump e ∈ (embed ifd dump insert body).calls →
      e.zeroth.find ifd.ImageDescription = some (.value (.string description))) ∧
    (∀ other, (embed ifd dump insert { body with description := other }).calls = [] ↔
      (embed ifd dump insert body).calls = []) ∧
    (∀ raw hadPrefix other xpTitle xpKeywords,
      Accepted { body with description := other } raw hadPrefix →
      encodeUCS2Js (orEmpty body.title) = .ok xpTitle →
      encodeUCS2Js (orEmpty body.keywords) = .ok xpKeywords →
      ∃ e, Call.dump e ∈ (embed ifd dump insert body).calls ∧
        e.zeroth.find ifd.ImageDescription = some (.value (.string description))) := by
  have hor : orEmpty body.description = .string description := by
    rw [hd]
    exact orEmpty_string description
  have hfind : ∀ e, buildExifObj ifd body.title body.description body.keywords = .ok e →
      e.zeroth.find ifd.ImageDescription = some (.value (.string description)) := by
    intro e he
    obtain ⟨xpTitle, xpKeywords, _, _, rfl⟩ := buildExifObj_ok ifd _ _ _ e he
    simp only [zeroth_entries ifd h12 h13 h23, hor]
    simp [Ifd.find, List.find?]
  have htr : body.description.truthy = true := by
    rw [hd]
    simp [JsVal.truthy, hne]
  refine ⟨htr, hor, hfind, ?_, ?_, ?_⟩
  · intro e he
    exact hfind e (dump_mem_embed ifd dump insert body e he)
  · intro other
    rcases embed_cases ifd dump insert body with ⟨_, _, hc, hno⟩ | ⟨raw, hadPrefix, ha⟩
    · rcases embed_cases ifd dump insert { body with description := other } with
        ⟨_, _, hc2, _⟩ | ⟨raw, hadPrefix, ha⟩
      · rw [hc, hc2]
      · exact absurd ha (hno raw hadPrefix)
    · have ha2 : Accepted { body with description := other } raw hadPrefix := ha
      rw [calls_nil_iff ifd dump insert body raw hadPrefix ha,
        calls_nil_iff ifd dump insert _ raw hadPrefix ha2]
      constructor
      · rintro ⟨err, h⟩
        exact ⟨err, buildExifObj_error ifd _ _ _ err h _⟩
      · rintro ⟨err, h⟩
        exact ⟨err, buildExifObj_error ifd _ _ _ err h _⟩
  · intro raw hadPrefix other xpTitle xpKeywords ha ht hk
    have hb := buildExifObj_of_ok ifd body.title body.description body.keywords _ _ ht hk
    exact ⟨_, dump_mem_of_accepted ifd dump insert body raw hadPrefix ha _ hb, hfind _ hb⟩

/-- A description with characters outside the ASCII range is stored as it is, and the
serialiser receives it. -/
theorem description_unchanged_witness :
    exifTags.ImageDescription ≠ exifTags.XPTitle ∧
    exifTags.ImageDescription ≠ exifTags.XPKeywords ∧
    exifTags.XPTitle ≠ exifTags.XPKeywords ∧
    jsStr "é😀" ≠ [] ∧
    accentBody.description = .string (jsStr "é😀") ∧
    orEmpty accentBody.description = .string (jsStr "é😀") ∧
    ∃ e, Call.dump e ∈ (embed exifTags sampleDump sampleInsert accentBody).calls ∧
      e.zeroth.find exifTags.ImageDescription = some (.value (.string (jsStr "é😀"))) :=
  have h := description_unchanged exifTags (by decide) (by decide) (by decide) sampleDump
    sampleInsert accentBody (jsStr "é😀") (by decide) rfl
  ⟨by decide, by decide, by decide, by decide, rfl, h.2.1,
    h.2.2.2.2.2 sampleImage false (.string (jsStr "é😀")) _ _ accentBody_accepted rfl rfl⟩

/-- C7, as stated, fails: two failures of different kinds with the same message give the
same outcome, so the response does not carry the kind of the failure. -/
theorem error_kind_not_in_response :
    (JsError.mk (jsStr "FormatError") (jsStr "bad input")).name ≠
      (JsError.mk (jsStr "EncodingError") (jsStr "bad input")).name ∧
    embed exifTags (throwing (JsError.mk (jsStr "FormatError") (jsStr "bad input")))
        sampleInsert sampleBody =
      embed exifTags (throwing (JsError.mk (jsStr "EncodingError") (jsStr "bad input")))
        sampleInsert sampleBody :=
  ⟨by decide, rfl⟩

/-- C7, amended: if the build step or the splice step throws, the response is the
status-500 error whose `error` is that failure's message, unchanged, with no image (and a
failed build step is not followed by the splice step); a response never has both an image
and an error; a status-200 response is sent only when both steps returned. -/
theorem failure_propagation (ifd : ImageIFD) (dump : ExifObj → Except JsError JsString)
    (insert : JsString → JsString → Except JsError JsString) (body : Body) :
    (∀ e err, Call.dump e ∈ (embed ifd dump insert body).calls → dump e = .error err →
      (embed ifd dump insert body).response =
        { status := 500, image := none, error := some err.message } ∧
      (embed ifd dump insert body).calls = [.dump e]) ∧
    (∀ b j err, Call.insert b j ∈ (embed ifd dump insert body).calls →
      insert b j = .error err →
      (embed ifd dump insert body).response =
        { status := 500, image := none, error := some err.message }) ∧
    ¬ ((embed ifd dump insert body).response.image.isSome = true ∧
        (embed ifd dump insert body).response.error.isSome = true) ∧
    ((embed ifd dump insert body).response.status = 200 →
      ∃ e b j inserted, (embed ifd dump insert body).calls = [.dump e, .insert b j] ∧
        dump e = .ok b ∧ insert b j = .ok inserted) := by
  rcases embed_cases ifd dump insert body with ⟨h400, himg, hc, _⟩ | ⟨raw, hadPrefix, ha⟩
  · refine ⟨?_, ?_, ?_, ?_⟩
    · intro e err he
      rw [hc] at he
      cases he
    · intro b j err he
      rw [hc] at he
      cases he
    · simp [himg]
    · intro h
      rw [h400] at h
      cases h
  · rw [embed_of_accepted ifd dump insert body raw hadPrefix ha]
    rcases embedAccepted_calls ifd dump insert body raw hadPrefix with
      ⟨err, _, h⟩ | ⟨e0, err, _, hdump, h⟩ |
      ⟨e0, exifBytes, _, hdump, hcalls, ⟨err, hins, hresp⟩ | ⟨inserted, hins, hresp⟩⟩
    · rw [h]
      refine ⟨?_, ?_, ?_, ?_⟩
      · intro e err2 he
        cases he
      · intro b j err2 he
        cases he
      · simp [serverError]
      · intro h200
        cases h200
    · rw [h]
      refine ⟨?_, ?_, ?_, ?_⟩
      · intro e err2 he hde
        simp only [List.mem_singleton, Call.dump.injEq] at he
        subst he
        rw [hdump] at hde
        cases hde
        exact ⟨rfl, rfl⟩
      · intro b j err2 he
        simp at he
      · simp [serverError]
      · intro h200
        cases h200
    · rw [hcalls, hresp]
      refine ⟨?_, ?_, ?_, ?_⟩
      · intro e err2 he hde
        simp only [List.mem_cons, Call.dump.injEq, List.mem_singleton, reduceCtorEq,
          or_false, List.not_mem_nil] at he
        subst he
        rw [hdump] at hde
        cases hde
      · intro b j err2 he hie
        simp only [List.mem_cons, reduceCtorEq, Call.insert.injEq, List.mem_singleton,
          false_or, List.not_mem_nil, or_false] at he
        obtain ⟨rfl, rfl⟩ := he
        rw [hins] at hie
        cases hie
        rfl
      · simp [serverError]
      · intro h200
        cases h200
    · rw [hcalls, hresp]
      refine ⟨?_, ?_, ?_, ?_⟩
      · intro e err2 he hde
        simp only [List.mem_cons, Call.dump.injEq, List.mem_singleton, reduceCtorEq,
          or_false, List.not_mem_nil] at he
        subst he
        rw [hdump] at hde
        cases hde
      · intro b j err2 he hie
        simp only [List.mem_cons, reduceCtorEq, Call.insert.injEq, List.mem_singleton,
          false_or, List.not_mem_nil, or_false] at he
        obtain ⟨rfl, rfl⟩ := he
        rw [hins] at hie
        cases hie
      · cases hadPrefix <;> simp [sendImage]
      · intro _
        exact ⟨_, _, _, inserted, rfl, hdump, hins⟩

/-- A throwing build step and a throwing splice step each give the 500 response with the
thrown message. -/
theorem failure_propagation_witness :
    (embed exifTags (throwing (JsError.mk (jsStr "FormatError") (jsStr "bad input")))
        sampleInsert sampleBody).response =
      { status := 500, image := none, error := some (jsStr "bad input") } ∧
    (embed exifTags sampleDump
        (fun _ _ => .error (JsError.mk (jsStr "FormatError") (jsStr "not jpeg")))
        sampleBody).response =
      { status := 500, image := none, error := some (jsStr "not jpeg") } :=
  ⟨((failure_propagation exifTags
      (throwing (JsError.mk (jsStr "FormatError") (jsStr "bad input"))) sampleInsert
      sampleBody).1 _ _
      (dump_mem_of_accepted exifTags _ sampleInsert sampleBody sampleImage false
        sampleBody_accepted sampleExifObj sampleBody_build) rfl).1,
    (failure_propagation exifTags sampleDump
      (fun _ _ => .error (JsError.mk (jsStr "FormatError") (jsStr "not jpeg")))
      sampleBody).2.1 (jsStr "Exif") (jsStr "data:image/jpeg;base64," ++ sampleImage) _
      (by
        rw [embed_of_accepted exifTags _ _ sampleBody sampleImage false sampleBody_accepted]
        simp [embedAccepted, sampleBody_build, sampleDump])
      rfl⟩

/-- C9, as stated, fails: for `r = "ab,cd"` after the JPEG prefix the handler computes the
raw base64 `"ab"`, not `r`. -/
theorem strip_stops_at_comma :
    stripDataUri (jsStr "data:image/jpeg;base64," ++ jsStr "ab,cd") =
      .ok (some (jsStr "ab"), true) ∧
    jsStr "ab" ≠ jsStr "ab,cd" :=
  ⟨rfl, by decide⟩

/-- C9, amended: for an image string `P ++ r` with `P` one of the two JPEG data-URI
prefixes, the raw base64 the handler computes is `r` up to its first comma, which is
exactly `r` when `r` has no comma; for an image string that does not begin with
`"data:image/"` it is the image string itself; and whenever the splice step is called,
the string passed to it is `"data:image/jpeg;base64,"` followed by the raw base64. -/
theorem strip_data_uri (ifd : ImageIFD) (dump : ExifObj → Except JsError JsString)
    (insert : JsString → JsString → Except JsError JsString) (body : Body)
    (r image : JsString) :
    stripDataUri (jsStr "data:image/jpeg;base64," ++ r) =
      .ok (some (r.takeWhile (fun c => c != comma)), true) ∧
    stripDataUri (jsStr "data:image/jpg;base64," ++ r) =
      .ok (some (r.takeWhile (fun c => c != comma)), true) ∧
    (comma ∉ r →
      stripDataUri (jsStr "data:image/jpeg;base64," ++ r) = .ok (some r, true) ∧
      stripDataUri (jsStr "data:image/jpg;base64," ++ r) = .ok (some r, true)) ∧
    (startsWith image (jsStr "data:image/") = false →
      stripDataUri image = .ok (some image, false)) ∧
    (∀ b j, Call.insert b j ∈ (embed ifd dump insert body).calls →
      ∃ raw hadPrefix, Accepted body raw hadPrefix ∧
        j = jsStr "data:image/jpeg;base64," ++ raw) := by
  refine ⟨stripDataUri_jpeg r, stripDataUri_jpg r, ?_, stripDataUri_other image, ?_⟩
  · intro hr
    have h1 := stripDataUri_jpeg r
    have h2 := stripDataUri_jpg r
    rw [takeWhile_no_comma r hr] at h1 h2
    exact ⟨h1, h2⟩
  · intro b j he
    rcases embed_cases ifd dump insert body with ⟨_, _, hc, _⟩ | ⟨raw, hadPrefix, ha⟩
    · rw [hc] at he
      cases he
    · refine ⟨raw, hadPrefix, ha, ?_⟩
      rw [embed_of_accepted ifd dump insert body raw hadPrefix ha] at he
      rcases embedAccepted_calls ifd dump insert body raw hadPrefix with
        ⟨err, _, h⟩ | ⟨e, err, _, _, h⟩ | ⟨e, exifBytes, _, _, h, _⟩
      · rw [h] at he
        cases he
      · rw [h] at he
        simp at he
      · rw [h] at he
        simp only [List.mem_cons, reduceCtorEq, Call.insert.injEq, List.mem_singleton,
          false_or, List.not_mem_nil, or_false] at he
        exact he.2

/-- Stripping either JPEG prefix from a comma-free base64 text gives that text. -/
theorem strip_data_uri_witness :
    comma ∉ jsStr "/9j/4AAQ" ∧
    stripDataUri (jsStr "data:image/jpeg;base64," ++ jsStr "/9j/4AAQ") =
      .ok (some (jsStr "/9j/4AAQ"), true) ∧
    stripDataUri (jsStr "data:image/jpg;base64," ++ jsStr "/9j/4AAQ") =
      .ok (some (jsStr "/9j/4AAQ"), true) :=
  ⟨by decide,
    (strip_data_uri exifTags sampleDump sampleInsert sampleBody (jsStr "/9j/4AAQ")
      sampleImage).2.2.1 (by decide)⟩

/-- C10, as stated, fails, in three places. A 73-byte sequence that starts with SOI has a
base64 text of exactly 100 characters: it is fewer than 75 bytes and yet passes the length
check and reaches the build and splice steps. A request with an accepted 100-character
image and the keywords `["a"]` is answered 500 without reaching the build step. When the
build step throws, an accepted request does not reach the splice step. -/
theorem size_gate_counterexample :
    (jpeg73.length = 73 ∧ jpeg73.take 2 = [0xFF, 0xD8] ∧
      (base64 jpeg73).length = 100 ∧
      (embed exifTags sampleDump sampleInsert jpeg73Body).response.status = 200 ∧
      (embed exifTags sampleDump sampleInsert jpeg73Body).calls =
        [.dump emptyExifObj,
         .insert (jsStr "Exif") (jsStr "data:image/jpeg;base64," ++ base64 jpeg73)]) ∧
    (arrayBody.image = .string sampleImage ∧
      stripDataUri sampleImage = .ok (some sampleImage, false) ∧
      sampleImage.length = 100 ∧
      (embed exifTags sampleDump sampleInsert arrayBody).response =
        { status := 500, image := none,
          error := some (jsStr "str.charCodeAt is not a function") } ∧
      (embed exifTags sampleDump sampleInsert arrayBody).calls = []) ∧
    (embed exifTags (throwing (JsError.mk (jsStr "Error") (jsStr "bad input"))) sampleInsert
        sampleBody).calls = [.dump sampleExifObj] := by
  refine ⟨⟨rfl, rfl, rfl, rfl, ?_⟩, ⟨rfl, rfl, rfl, rfl, rfl⟩, rfl⟩
  have h : (embed exifTags sampleDump sampleInsert jpeg73Body).calls =
      [.dump { zeroth := [(270, .value (.string [])), (40091, .bytes (encodeUCS2 [])),
                          (40094, .bytes (encodeUCS2 []))],
               exif := [], gps := [], interop := [], first := [], thumbnail := none },
       .insert (jsStr "Exif") (jsStr "data:image/jpeg;base64," ++ base64 jpeg73)] := rfl
  rw [h, encodeUCS2_nil]
  rfl

/-- C10, amended: for a string image whose raw base64 part has fewer than 100 characters
the handler answers 400 and calls neither the build nor the splice step; hence every byte
sequence of fewer than 73 bytes, sent as padded base64 with or without a JPEG data-URI
prefix, is rejected; conversely, for a string image whose raw base64 part has at least 100
characters: if `encodeUCS2` throws on the title or the keywords the handler answers 500
with that message and calls no step; otherwise (as always when title and keywords are each
a string or absent) the request reaches the build step, and the splice step exactly when
the build step returns. -/
theorem length_gate (ifd : ImageIFD) (dump : ExifObj → Except JsError JsString)
    (insert : JsString → JsString → Except JsError JsString) (body : Body)
    (image : JsString) (hi : body.image = .string image) :
    ((∀ raw hadPrefix, stripDataUri image = .ok (some raw, hadPrefix) → raw.length < 100) →
      (embed ifd dump insert body).response.status = 400 ∧
      (embed ifd dump insert body).calls = []) ∧
    (∀ bytes : List Byte, bytes.length < 73 →
      image = base64 bytes ∨ image = jsStr "data:image/jpeg;base64," ++ base64 bytes ∨
        image = jsStr "data:image/jpg;base64," ++ base64 bytes →
      (embed ifd dump insert body).response.status = 400 ∧
      (embed ifd dump insert body).calls = []) ∧
    (∀ raw hadPrefix, stripDataUri image = .ok (some raw, hadPrefix) → 100 ≤ raw.length →
      (∀ err, buildExifObj ifd body.title body.description body.keywords = .error err →
        (embed ifd dump insert body).response = serverError err ∧
        (embed ifd dump insert body).calls = []) ∧
      (∀ e, buildExifObj ifd body.title body.description body.keywords = .ok e →
        ∃ rest, (embed ifd dump insert body).calls = .dump e :: rest ∧
          (∀ exifBytes, dump e = .ok exifBytes →
            rest = [.insert exifBytes (jsStr "data:image/jpeg;base64," ++ raw)]) ∧
          (∀ err, dump e = .error err → rest = [])) ∧
      (∀ xpTitle xpKeywords, encodeUCS2Js (orEmpty body.title) = .ok xpTitle →
        encodeUCS2Js (orEmpty body.keywords) = .ok xpKeywords →
        ∃ e, buildExifObj ifd body.title body.description body.keywords = .ok e) ∧
      ((body.title = .undefined ∨ ∃ s, body.title = .string s) →
        (body.keywords = .undefined ∨ ∃ s, body.keywords = .string s) →
        ∃ e, buildExifObj ifd body.title body.description body.keywords = .ok e)) := by
  have gate : (∀ raw hadPrefix, stripDataUri image = .ok (some raw, hadPrefix) →
      raw.length < 100) →
      (embed ifd dump insert body).response.status = 400 ∧
      (embed ifd dump insert body).calls = [] := by
    intro hshort
    rcases embed_cases ifd dump insert body with ⟨h400, _, hc, _⟩ | ⟨raw, hadPrefix, ha⟩
    · exact ⟨h400, hc⟩
    · obtain ⟨image2, hi2, hs, hl⟩ := ha
      rw [hi] at hi2
      cases hi2
      have := hshort raw hadPrefix hs
      omega
  refine ⟨gate, ?_, ?_⟩
  · intro bytes hb himage
    apply gate
    intro raw hadPrefix hs
    have hlen : (base64 bytes).length < 100 := by
      rw [base64_length]
      omega
    rcases himage with h | h | h
    · have := stripDataUri_raw_length image raw hadPrefix hs
      rw [h] at this
      omega
    · have h2 := stripDataUri_jpeg (base64 bytes)
      rw [h] at hs
      rw [show jsStr "data:image/jpeg;base64," = jpegPrefix from rfl, h2] at hs
      simp only [Except.ok.injEq, Prod.mk.injEq, Option.some.injEq] at hs
      have := (List.takeWhile_sublist (l := base64 bytes) (fun c => c != comma)).length_le
      rw [hs.1] at this
      omega
    · have h2 := stripDataUri_jpg (base64 bytes)
      rw [h] at hs
      rw [show jsStr "data:image/jpg;base64," = jpgPrefix from rfl, h2] at hs
      simp only [Except.ok.injEq, Prod.mk.injEq, Option.some.injEq] at hs
      have := (List.takeWhile_sublist (l := base64 bytes) (fun c => c != comma)).length_le
      rw [hs.1] at this
      omega
  · intro raw hadPrefix hs hl
    rw [embed_of_accepted ifd dump insert body raw hadPrefix ⟨image, hi, hs, hl⟩]
    have hbuild : ∀ xpTitle xpKeywords, encodeUCS2Js (orEmpty body.title) = .ok xpTitle →
        encodeUCS2Js (orEmpty body.keywords) = .ok xpKeywords →
        ∃ e, buildExifObj ifd body.title body.description body.keywords = .ok e :=
      fun xpTitle xpKeywords ht hk =>
        ⟨_, buildExifObj_of_ok ifd body.title body.description body.keywords _ _ ht hk⟩
    refine ⟨?_, ?_, hbuild, ?_⟩
    · intro err hb
      rcases embedAccepted_calls ifd dump insert body raw hadPrefix with
        ⟨err2, hb2, h⟩ | ⟨e, err2, hb2, _, _⟩ | ⟨e, exifBytes, hb2, _, _, _⟩
      · rw [hb] at hb2
        cases hb2
        rw [h]
        exact ⟨rfl, rfl⟩
      · rw [hb] at hb2
        cases hb2
      · rw [hb] at hb2
        cases hb2
    · intro e hb
      rcases embedAccepted_calls ifd dump insert body raw hadPrefix with
        ⟨err2, hb2, _⟩ | ⟨e2, err2, hb2, hdump, h⟩ | ⟨e2, exifBytes, hb2, hdump, h, _⟩
      · rw [hb] at hb2
        cases hb2
      · rw [hb] at hb2
        cases hb2
        refine ⟨[], by rw [h], ?_, fun _ _ => rfl⟩
        intro exifBytes hd
        rw [hdump] at hd
        cases hd
      · rw [hb] at hb2
        cases hb2
        refine ⟨_, h, ?_, ?_⟩
        · intro exifBytes2 hd
          rw [hdump] at hd
          cases hd
          rfl
        · intro err hd
          rw [hdump] at hd
          cases hd
    · intro ht hk
      obtain ⟨s1, _, h1⟩ := encodeUCS2Js_text body.title ht
      obtain ⟨s2, _, h2⟩ := encodeUCS2Js_text body.keywords hk
      exact hbuild _ _ h1 h2

/-- The sample request passes the length check and reaches both steps. -/
theorem length_gate_witness :
    sampleBody.image = .string sampleImage ∧
    stripDataUri sampleImage = .ok (some sampleImage, false) ∧
    100 ≤ sampleImage.length ∧
    buildExifObj exifTags sampleBody.title sampleBody.description sampleBody.keywords =
      .ok sampleExifObj ∧
    ∃ rest, (embed exifTags sampleDump sampleInsert sampleBody).calls =
        .dump sampleExifObj :: rest ∧
      (∀ exifBytes, sampleDump sampleExifObj = .ok exifBytes →
        rest = [.insert exifBytes (jsStr "data:image/jpeg;base64," ++ sampleImage)]) ∧
      (∀ err, sampleDump sampleExifObj = .error err → rest = []) :=
  ⟨rfl, rfl, by decide, sampleBody_build,
    ((length_gate exifTags sampleDump sampleInsert sampleBody sampleImage rfl).2.2
      sampleImage false rfl (by decide)).2.1 sampleExifObj sampleBody_build⟩

end IptcApi
